import Mathlib

/-!
Shallow embedding of the FEN decoding core of chess-rs
(src/src/game/mod.rs): the piece/color/board data model,
`Board::from_fen`, and `Game::from_fen`, together with proofs about
the behaviour the specification claims.

Strings are modelled as lists of characters.  The Rust code iterates
the placement field byte by byte, but every byte its scan accepts is a
single ASCII character and every other byte (including any byte of a
multi-byte UTF-8 character) falls to the same invalid-character error,
so the character-level view agrees observably with the byte-level one.
Splitting on the space character is byte-exact for UTF-8 either way.

Rust `usize` values are modelled as `Nat`, with the 64-bit bound made
explicit where the source can actually hit it: numeric-field decoding
(`str::parse::<usize>` fails with an overflow error at `2^64`), and
the `full_turn_num * 2 + 1` computation, whose overflow in a
checked-arithmetic build is a panic, modelled by the `Panic` error.
The cursor increments `x + 1` and `y + 1` of the placement scan grow
by at most one per input byte and cannot reach `2^64` for any string
that can exist, so they are left as exact `Nat` arithmetic.

The source reports errors as strings (and boxed errors at the `Game`
level).  Each distinct error message is represented by one constructor
of `FenError`, carrying the formatted values as payloads.
-/

deriving instance DecidableEq for Except

/-- The type of piece in chess (`enum PieceType`). -/
inductive PieceType
  | Pawn | Rook | Knight | Bishop | Queen | King
deriving DecidableEq

/-- The color of the piece in chess (`enum Color`). -/
inductive Color
  | Black | White
deriving DecidableEq

/-- A piece in chess (`struct Piece`). -/
structure Piece where
  piece : PieceType
  color : Color
deriving DecidableEq

/-- The board (`struct Board`): 64 cells, index 0 the top-left square
from White's perspective, increasing index going across the board. -/
structure Board where
  position : List (Option Piece)
deriving DecidableEq

/-- Decode failures of the two `from_fen` functions.  `NoFen` is the
"No FEN?" error, `InvalidChar` the "Invalid char in FEN" error,
`InvalidCoordinate x y` the "Invalid coordinate reached: x, y" error,
`InvalidTurn` the "Invalid turn specifier" error,
`InvalidCastlingChar c` the "Invalid char in castling part: c" error,
and `NumParse` a `usize` decode failure propagated by `?`.  `Panic`
models a Rust runtime panic: an out-of-bounds index in
`position[index] = maybe_piece`, or checked-arithmetic overflow. -/
inductive FenError
  | NoFen
  | InvalidChar
  | InvalidCoordinate (x y : Nat)
  | InvalidTurn
  | InvalidCastlingChar (c : Char)
  | NumParse
  | Panic
deriving DecidableEq

/-- `Board::c_to_i`: changes a coordinate (`x` in `0..8`, `y` in
`0..8`) into an index in `0..64`. -/
def Board.c_to_i (x y : Nat) : Nat :=
  y * 8 + x

/-- `Board::c_is_valid`: checks for a valid coordinate
(`(0..8).contains(&x) && (0..8).contains(&y)`; the lower bounds are
vacuous for the unsigned `usize`). -/
def Board.c_is_valid (x y : Nat) : Bool :=
  decide (x < 8) && decide (y < 8)

/-- `Board::blank`: the board with all 64 cells empty. -/
def Board.blank : Board :=
  ⟨List.replicate 64 none⟩

/-- Rust `str::split(' ')` collected into a deque: splits at every
space character, keeping empty pieces, and yields one (empty) piece
for the empty string — the result is never the empty list. -/
def splitSp : List Char → List (List Char)
  | [] => [[]]
  | c :: rest =>
    if c = ' ' then
      [] :: splitSp rest
    else
      match splitSp rest with
      | [] => [[c]]
      | f :: fs => (c :: f) :: fs

/-- Color of a placed piece: Black when the source character is ASCII
lowercase (`c.is_ascii_lowercase()`), White otherwise. -/
def pieceColor (c : Char) : Color :=
  if c.isLower then Color.Black else Color.White

/-- One character step of the placement scan (the big `match` in
`Board::from_fen`): the piece to place (if any) together with the new
cursor, or the invalid-character error.  The scrutinee is the
ASCII-lowercased character.  Note that the digit arm assigns
`x := (c - b'1' + 1)`, the digit's value — it does not add the digit
to `x`. -/
def scanStep (c : Char) (x y : Nat) : Except FenError (Option Piece × Nat × Nat) :=
  let lc := c.toLower
  if lc = 'r' then .ok (some ⟨PieceType.Rook, pieceColor c⟩, x + 1, y)
  else if lc = 'n' then .ok (some ⟨PieceType.Knight, pieceColor c⟩, x + 1, y)
  else if lc = 'b' then .ok (some ⟨PieceType.Bishop, pieceColor c⟩, x + 1, y)
  else if lc = 'q' then .ok (some ⟨PieceType.Queen, pieceColor c⟩, x + 1, y)
  else if lc = 'k' then .ok (some ⟨PieceType.King, pieceColor c⟩, x + 1, y)
  else if lc = 'p' then .ok (some ⟨PieceType.Pawn, pieceColor c⟩, x + 1, y)
  else if lc = '/' then .ok (none, 0, y + 1)
  else if '1' ≤ lc ∧ lc ≤ '8' then .ok (none, c.toNat - '1'.toNat + 1, y)
  else .error .InvalidChar

/-- The scan loop of `Board::from_fen` over the placement field.  The
write index is `c_to_i x y`, computed from the cursor before the
character is handled.  A piece is written only when `lastInvalid` is
unset; the Rust array write `position[index] = maybe_piece` would
panic if `index` were out of `0..64`, modelled by the `Panic` error
branch.  `lastInvalid` is recomputed after every character as the
invalidity of the post-step cursor. -/
def scanLoop : List Char → Nat → Nat → Bool → List (Option Piece) →
    Except FenError (List (Option Piece))
  | [], _, _, _, pos => .ok pos
  | c :: cs, x, y, lastInvalid, pos =>
    match scanStep c x y with
    | .error e => .error e
    | .ok (maybePiece, x2, y2) =>
      match maybePiece with
      | some p =>
        if lastInvalid then
          .error (.InvalidCoordinate x2 y2)
        else if Board.c_to_i x y < 64 then
          scanLoop cs x2 y2 (!Board.c_is_valid x2 y2) (pos.set (Board.c_to_i x y) (some p))
        else
          .error .Panic
      | none => scanLoop cs x2 y2 (!Board.c_is_valid x2 y2) pos

/-- `Board::from_fen`: splits the whole string on spaces, pops the
first field as the placement field (the pop is `None` only if the
split were empty, which it never is) and scans it from cursor (0, 0)
over a blank 64-cell position. -/
def Board.from_fen (fen : List Char) : Except FenError Board :=
  match splitSp fen with
  | [] => .error .NoFen
  | pos :: _ => (scanLoop pos 0 0 false (List.replicate 64 none)).map Board.mk

/-- The turn `match` of `Game::from_fen`, applied to the first field
popped from its own re-split of the whole string.  The guard order of
the source is kept: a present field that is neither "b" nor "w"
errors, a present "b" gives Black, and the wildcard arm (absent
field, or present "w") gives White. -/
def parseTurn : Option (List Char) → Except FenError Color
  | some t =>
    if t ≠ ['b'] ∧ t ≠ ['w'] then .error .InvalidTurn
    else if t = ['b'] then .ok Color.Black
    else .ok Color.White
  | none => .ok Color.White

/-- The character scan of the castling field: each character must
satisfy `"KQkq".contains(c)` and is appended, otherwise the decode
errors naming the character. -/
def castScan : List Char → List Char → Except FenError (List Char)
  | [], acc => .ok acc
  | c :: cs, acc =>
    if c = 'K' ∨ c = 'Q' ∨ c = 'k' ∨ c = 'q' then castScan cs (acc ++ [c])
    else .error (.InvalidCastlingChar c)

/-- The castling `match` of `Game::from_fen` on the next popped field:
a literal "-" gives no rights, any other present field is scanned
character by character, and an absent field defaults to the full
rights ['K', 'Q', 'k', 'q']. -/
def parseCastling : Option (List Char) → Except FenError (List Char)
  | some t => if t = ['-'] then .ok [] else castScan t []
  | none => .ok ['K', 'Q', 'k', 'q']

/-- Value of a run of ASCII digits, most significant first. -/
def digitsVal (l : List Char) : Nat :=
  l.foldl (fun acc c => acc * 10 + (c.toNat - '0'.toNat)) 0

/-- Rust `str::parse::<usize>()`: an optional leading '+', then one
or more ASCII digits whose value is below `2^64`; an empty digit run,
a leading '-' (the type is unsigned), any non-digit character, or
overflow is a decode failure. -/
def parseUsize (s : List Char) : Except FenError Nat :=
  let ds := match s with
    | '+' :: rest => rest
    | other => other
  if ds ≠ [] ∧ ds.all Char.isDigit = true ∧ digitsVal ds < 2 ^ 64 then .ok (digitsVal ds)
  else .error .NumParse

/-- The `half_turn_num` computation of `Game::from_fen`:
`full_turn_num * 2 + 1` when the decoded turn is Black and
`full_turn_num * 2` when it is White, in `usize` arithmetic; the
overflow panic of a checked build is modelled by `Panic`. -/
def halfTurn (turn : Color) (full : Nat) : Except FenError Nat :=
  match turn with
  | Color.Black =>
    if full * 2 < 2 ^ 64 then
      if full * 2 + 1 < 2 ^ 64 then .ok (full * 2 + 1) else .error .Panic
    else .error .Panic
  | Color.White =>
    if full * 2 < 2 ^ 64 then .ok (full * 2) else .error .Panic

/-- The game record (`struct Game`). -/
structure Game where
  board : Board
  turn : Color
  start_turn : Nat
  half_turn_num : Nat
  full_turn_num : Nat
  castling : List Char
  fifty_move_rule : Nat
deriving DecidableEq

/-- `Game::from_fen`.  The board is decoded from the whole string
first (`Board::from_fen` pops the placement field from its own
split).  The function then re-splits the whole string and pops fields
front to back, so the first popped field — the placement field, not
the second field — feeds the turn `match`, the second feeds the
castling `match`, the third is the consumed-but-discarded en-passant
slot, the fourth is the fifty-move counter and the fifth the
full-move number; an absent numeric field defaults to the text "0"
before decoding. -/
def Game.from_fen (fen : List Char) : Except FenError Game :=
  Except.bind (Board.from_fen fen) fun board =>
  Except.bind (parseTurn (splitSp fen).head?) fun turn =>
  Except.bind (parseCastling (splitSp fen).tail.head?) fun castling =>
  Except.bind (parseUsize (((splitSp fen).tail.tail.tail.head?).getD ['0'])) fun fifty_move_rule =>
  Except.bind (parseUsize (((splitSp fen).tail.tail.tail.tail.head?).getD ['0'])) fun full_turn_num =>
  Except.bind (halfTurn turn full_turn_num) fun half_turn_num =>
  Except.ok { board, turn, start_turn := full_turn_num, half_turn_num, full_turn_num,
              castling, fifty_move_rule }

/-- Discriminator used to state that a decode result is not the
modelled panic. -/
def isNotPanic {α : Type} : Except FenError α → Bool
  | .error .Panic => false
  | _ => true

/-- The game produced by decoding the single-character string "b"
(placement field "b": one black bishop at index 0; the same field
read again by the turn match gives Black; every later field is
absent and defaulted). -/
def gameB : Game :=
  { board := ⟨(List.replicate 64 none).set 0 (some ⟨PieceType.Bishop, Color.Black⟩)⟩,
    turn := Color.Black, start_turn := 0, half_turn_num := 1, full_turn_num := 0,
    castling := ['K', 'Q', 'k', 'q'], fifty_move_rule := 0 }

/-- The game produced by decoding "b K - 3 7": black bishop at index
0, turn Black (first field "b" again), castling ['K'] (second field),
"-" discarded (third field), fifty-move counter 3 (fourth field),
full-move number 7 (fifth field), half turn 15. -/
def gameBK : Game :=
  { board := ⟨(List.replicate 64 none).set 0 (some ⟨PieceType.Bishop, Color.Black⟩)⟩,
    turn := Color.Black, start_turn := 7, half_turn_num := 15, full_turn_num := 7,
    castling := ['K'], fifty_move_rule := 3 }

/-- Eliminating a successful `Except.bind`: the first computation
succeeded and its value fed the continuation. -/
theorem except_bind_ok_elim {ε α β : Type} {r : Except ε α} {f : α → Except ε β} {b : β}
    (h : Except.bind r f = Except.ok b) : ∃ a, r = Except.ok a ∧ f a = Except.ok b := by
  cases r with
  | error e => simp [Except.bind] at h
  | ok a => exact ⟨a, rfl, h⟩

/-- Splitting on spaces never yields an empty field list (Rust
`split` yields at least one piece, so the first `pop_front` in
`Board::from_fen` never takes its "No FEN?" branch). -/
theorem splitSp_cons (l : List Char) : ∃ f fs, splitSp l = f :: fs := by
  cases l with
  | nil => exact ⟨[], [], rfl⟩
  | cons c rest =>
    unfold splitSp
    by_cases hc : c = ' '
    · rw [if_pos hc]
      exact ⟨[], splitSp rest, rfl⟩
    · rw [if_neg hc]
      cases h : splitSp rest with
      | nil => exact ⟨[c], [], rfl⟩
      | cons f fs => exact ⟨c :: f, fs, rfl⟩

/-- Success of `Game::from_fen` decomposed into the success of each
of its stages, stated against the fields of the returned game. -/
theorem Game.from_fen_ok_spine (fen : List Char) (g : Game)
    (h : Game.from_fen fen = Except.ok g) :
    Board.from_fen fen = Except.ok g.board ∧
    parseTurn (splitSp fen).head? = Except.ok g.turn ∧
    parseCastling (splitSp fen).tail.head? = Except.ok g.castling ∧
    parseUsize (((splitSp fen).tail.tail.tail.head?).getD ['0']) = Except.ok g.fifty_move_rule ∧
    parseUsize (((splitSp fen).tail.tail.tail.tail.head?).getD ['0']) = Except.ok g.full_turn_num ∧
    halfTurn g.turn g.full_turn_num = Except.ok g.half_turn_num ∧
    g.start_turn = g.full_turn_num := by
  unfold Game.from_fen at h
  obtain ⟨board, hb, h⟩ := except_bind_ok_elim h
  obtain ⟨turn, ht, h⟩ := except_bind_ok_elim h
  obtain ⟨castling, hc, h⟩ := except_bind_ok_elim h
  obtain ⟨fifty, hf, h⟩ := except_bind_ok_elim h
  obtain ⟨full, hn, h⟩ := except_bind_ok_elim h
  obtain ⟨half, hh, h⟩ := except_bind_ok_elim h
  obtain rfl := (Except.ok.inj h)
  exact ⟨hb, ht, hc, hf, hn, hh, rfl⟩

/-- A successful turn `match` on a present field forces the field to
be exactly "b" or exactly "w". -/
theorem parseTurn_field_cases (f : List Char) (c : Color)
    (h : parseTurn (some f) = Except.ok c) : f = ['b'] ∨ f = ['w'] := by
  simp only [parseTurn] at h
  split_ifs at h with h1 h2
  · exact Or.inl h2
  · push_neg at h1
    exact Or.inr (h1 h2)

/-- A string whose first space-separated field is literally "w" is
rejected by `Board::from_fen`: the placement scan hits the character
'w', which matches no arm of the placement `match`. -/
theorem Board.from_fen_w_field (fen : List Char) (fs : List (List Char))
    (h : splitSp fen = ['w'] :: fs) :
    Board.from_fen fen = Except.error FenError.InvalidChar := by
  unfold Board.from_fen
  rw [h]
  rfl

/-- A successful `half_turn_num` computation satisfies the derived-ply
formula for the matching color. -/
theorem halfTurn_ok (turn : Color) (full half : Nat)
    (h : halfTurn turn full = Except.ok half) :
    (turn = Color.White → half = full * 2) ∧ (turn = Color.Black → half = full * 2 + 1) := by
  cases turn with
  | Black =>
    simp only [halfTurn] at h
    split_ifs at h with h1 h2
    exact ⟨fun hw => Color.noConfusion hw, fun _ => (Except.ok.inj h).symm⟩
  | White =>
    simp only [halfTurn] at h
    split_ifs at h with h1
    exact ⟨fun _ => (Except.ok.inj h).symm, fun hb => Color.noConfusion hb⟩

/-- The only error the per-character placement step itself raises is
the invalid-character one. -/
theorem scanStep_error (c : Char) (x y : Nat) (e : FenError)
    (h : scanStep c x y = Except.error e) : e = FenError.InvalidChar := by
  simp only [scanStep] at h
  split_ifs at h
  simp_all

/-- The panic branch of the scan loop is unreachable: as long as a
false `lastInvalid` flag certifies that the current cursor is a valid
coordinate, every write index `c_to_i x y` stays below 64, and the
recomputed flag re-establishes the same property for the next
character. -/
theorem scanLoop_no_panic (cs : List Char) : ∀ x y li pos,
    (li = false → Board.c_is_valid x y = true) →
    isNotPanic (scanLoop cs x y li pos) = true := by
  induction cs with
  | nil => intro x y li pos _; rfl
  | cons c cs ih =>
    intro x y li pos hinv
    cases hs : scanStep c x y with
    | error e =>
      obtain rfl := scanStep_error c x y e hs
      simp only [scanLoop, hs]
      rfl
    | ok t =>
      obtain ⟨mp, x2, y2⟩ := t
      cases mp with
      | none =>
        simp only [scanLoop, hs]
        exact ih x2 y2 _ pos (fun hli => by simpa using hli)
      | some p =>
        simp only [scanLoop, hs]
        cases li with
        | true => rfl
        | false =>
          have hv := hinv rfl
          have hlt : Board.c_to_i x y < 64 := by
            unfold Board.c_is_valid at hv
            simp only [Bool.and_eq_true, decide_eq_true_eq] at hv
            unfold Board.c_to_i
            omega
          rw [if_neg (by simp), if_pos hlt]
          exact ih x2 y2 _ _ (fun hli => by simpa using hli)

/-- Mapping a pure function over a decode result does not change
whether it is the modelled panic. -/
theorem isNotPanic_map {α β : Type} (f : α → β) (r : Except FenError α) :
    isNotPanic (Except.map f r) = isNotPanic r := by
  cases r with
  | error e => cases e <;> rfl
  | ok a => rfl

/-- Claim C1: the claim states that decoding the standard start
position succeeds; in fact `Game::from_fen` rejects it with the
invalid-turn-specifier error, because the turn `match` pops the first
field of its own re-split of the string — the placement field, which
is neither "b" nor "w". -/
theorem c1_start_fen_rejected :
    Game.from_fen ("rnbqkbnr/pppppppp/8/8/8/8/PPPPPPPP/RNBQKBNR w KQkq - 0 1".toList)
      = Except.error FenError.InvalidTurn := by
  decide

/-- Claim C2: the claim states that a digit advances the cursor by its
value; in fact the digit arm assigns `x := digit`, so the well-formed
placement "p1p5/8/8/8/8/8/8/8" decodes with its second pawn at index
1 (the claim requires index 2, with index 1 empty). -/
theorem c2_digit_assigns_x :
    (Board.from_fen ("p1p5/8/8/8/8/8/8/8".toList)).map (fun b => b.position.take 3)
      = Except.ok [some ⟨PieceType.Pawn, Color.Black⟩, some ⟨PieceType.Pawn, Color.Black⟩,
          none] := by
  decide

/-- Claim C3: the claim states that a FEN with a decodable placement
field and second field "b" yields a game with turn Black; in fact the
turn `match` never reads the second field — it pops the first (the
placement field "8/8/8/8/8/8/8/8" here) and errors on it. -/
theorem c3_second_field_never_read :
    Game.from_fen ("8/8/8/8/8/8/8/8 b - - 0 1".toList)
      = Except.error FenError.InvalidTurn := by
  decide

/-- Claim C4: whenever `Game::from_fen` succeeds, the turn of the
returned game is Black: the first popped field must be "b" or "w" to
pass the turn `match`, and a first field "w" is already rejected by
the placement scan, so on every success path the field is "b" and the
White arm is unreachable. -/
theorem c4_ok_turn_is_black (fen : List Char) (g : Game)
    (h : Game.from_fen fen = Except.ok g) : g.turn = Color.Black := by
  obtain ⟨hb, ht, -, -, -, -, -⟩ := Game.from_fen_ok_spine fen g h
  obtain ⟨f, fs, hsplit⟩ := splitSp_cons fen
  rw [hsplit] at ht
  simp only [List.head?_cons] at ht
  rcases parseTurn_field_cases f g.turn ht with rfl | rfl
  · have h2 : (Except.ok Color.Black : Except FenError Color) = Except.ok g.turn := ht
    exact (Except.ok.inj h2).symm
  · rw [Board.from_fen_w_field fen fs hsplit] at hb
    exact Except.noConfusion hb

/-- Claim C4 witness: the single-character string "b" decodes
successfully, and the resulting turn is Black. -/
theorem c4_witness : gameB.turn = Color.Black :=
  c4_ok_turn_is_black ("b".toList) gameB (by decide)

/-- Claim C5 counterexample: on the empty string, `Board::from_fen`
returns a board (so a Board value is produced), and `Game::from_fen`
fails with the invalid-turn-specifier error, which is not the
missing-placement-field ("No FEN?") error the claim requires. -/
theorem c5_counterexample :
    (Board.from_fen ([] : List Char)).isOk = true ∧
    Game.from_fen ([] : List Char) = Except.error FenError.InvalidTurn ∧
    FenError.InvalidTurn ≠ FenError.NoFen := by
  decide

/-- Claim C5 as amended: decoding the empty FEN string with
`Game::from_fen` fails, but with the invalid-turn-specifier error
(splitting the empty string yields one empty field, so the
missing-field branch is unreachable), while `Board::from_fen` on the
empty string succeeds and returns the all-empty board. -/
theorem c5_empty_fen_behavior :
    Game.from_fen ([] : List Char) = Except.error FenError.InvalidTurn ∧
    Board.from_fen ([] : List Char) = Except.ok Board.blank := by
  decide

/-- Claim C6: the claim states that a FEN whose castling field (field
3) is "KQkqX" fails naming 'X'; in fact the standard-shaped input
fails earlier with the invalid-turn error, and even when the first
two fields pass ("b w KQkqX"), the castling `match` reads field 2
("w") — one position early — and names 'w', not 'X'. -/
theorem c6_castling_field_misaligned :
    Game.from_fen ("rnbqkbnr/pppppppp/8/8/8/8/PPPPPPPP/RNBQKBNR w KQkqX - 0 1".toList)
      = Except.error FenError.InvalidTurn ∧
    Game.from_fen ("b w KQkqX".toList)
      = Except.error (FenError.InvalidCastlingChar 'w') := by
  decide

/-- Claim C7: the claim states that the fourth space-separated field
is discarded; in fact, because every pop is shifted one field early,
the fourth field is decoded as the fifty-move counter: two inputs
identical except for it ("b K - 0 1" versus "b K - x 1") give a
success and a numeric-decode failure respectively. -/
theorem c7_fourth_field_influences_result :
    (Game.from_fen ("b K - 0 1".toList)).isOk = true ∧
    Game.from_fen ("b K - x 1".toList) = Except.error FenError.NumParse := by
  decide

/-- Claim C8: in every game successfully returned by
`Game::from_fen`, `start_turn` equals `full_turn_num`, and
`half_turn_num` equals `full_turn_num * 2` when the turn is White and
`full_turn_num * 2 + 1` when it is Black. -/
theorem c8_half_turn_formula (fen : List Char) (g : Game)
    (h : Game.from_fen fen = Except.ok g) :
    g.start_turn = g.full_turn_num ∧
    (g.turn = Color.White → g.half_turn_num = g.full_turn_num * 2) ∧
    (g.turn = Color.Black → g.half_turn_num = g.full_turn_num * 2 + 1) := by
  obtain ⟨-, -, -, -, -, hh, hs⟩ := Game.from_fen_ok_spine fen g h
  obtain ⟨hw, hb⟩ := halfTurn_ok g.turn g.full_turn_num g.half_turn_num hh
  exact ⟨hs, hw, hb⟩

/-- Claim C8 witness: decoding "b K - 3 7" succeeds with turn Black,
full-move number 7, `start_turn` 7 and half-turn number 15. -/
theorem c8_witness :
    gameBK.start_turn = gameBK.full_turn_num ∧
    gameBK.half_turn_num = gameBK.full_turn_num * 2 + 1 := by
  have h := c8_half_turn_formula ("b K - 3 7".toList) gameBK (by decide)
  exact ⟨h.1, h.2.2 rfl⟩

/-- Claim C9: `Board::from_fen` never writes out of the bounds of the
64-cell position array: for every input string the modelled
out-of-bounds panic branch is unreachable, because a piece write only
happens while `last_invalid` is false, which certifies that the
pre-character cursor is a valid coordinate and hence that the write
index `y*8 + x` is below 64. -/
theorem c9_no_out_of_bounds_write (fen : List Char) :
    isNotPanic (Board.from_fen fen) = true := by
  unfold Board.from_fen
  cases h : splitSp fen with
  | nil => rfl
  | cons pos rest =>
    rw [isNotPanic_map]
    exact scanLoop_no_panic pos 0 0 false _ (fun _ => rfl)

/-- Claim C10: for coordinates with both components below 8,
`c_to_i` lands in `0..64` and is inverted exactly by remainder and
quotient by 8. -/
theorem c10_c_to_i_inverse (x y : Nat) (hx : x < 8) (hy : y < 8) :
    Board.c_to_i x y < 64 ∧ Board.c_to_i x y % 8 = x ∧ Board.c_to_i x y / 8 = y := by
  unfold Board.c_to_i
  omega

/-- Claim C10 witness at the concrete coordinate (3, 5). -/
theorem c10_witness :
    Board.c_to_i 3 5 < 64 ∧ Board.c_to_i 3 5 % 8 = 3 ∧ Board.c_to_i 3 5 / 8 = 5 :=
  c10_c_to_i_inverse 3 5 (by decide) (by decide)
